import Mathlib

/-!
Shallow embedding of the tag-based record aggregation engine of
src/app.py (a Streamlit study-efficiency app).  Pandas cell values are
modelled explicitly: a cell of the tag column is either a string or an
absent value (NaN); numeric cells after pd.to_numeric(errors := coerce)
are Option ℚ (none = NaN).  Pandas/Python primitives used by the code
(astype(str), str.split(","), str.strip(), str.contains, Series.mean,
the replace(0, 1) zero-guard) are each embedded as a Lean function.
-/

namespace StudyApp

/-- A raw cell of the tag column (授業スタイル): either a string value or an
absent value (NaN in the pandas frame). -/
inductive RawVal where
  | str (s : String)
  | absent
deriving DecidableEq

/-- Python astype(str) on a cell: a string is unchanged; NaN renders as the
literal string "nan" (this is what pandas astype(str) produces on a missing
value, as in line 108 of src/app.py). -/
def astypeStr : RawVal → String
  | RawVal.str s => s
  | RawVal.absent => "nan"

/-- Whitespace characters removed by Python str.strip(): space, tab, newline,
carriage return, vertical tab, form feed. -/
def isWS (c : Char) : Bool :=
  c = ' ' || c = '\t' || c = '\n' || c = '\r' || c = Char.ofNat 11 || c = Char.ofNat 12

/-- Python str.strip() on the character list: remove leading and trailing
whitespace. -/
def stripL (l : List Char) : List Char :=
  List.rdropWhile isWS (List.dropWhile isWS l)

/-- Python str.strip() on strings. -/
def strip (s : String) : String :=
  String.mk (stripL s.data)

/-- Python str.split(",") helper: accumulate the current piece (reversed) and
cut at every comma. -/
def splitCommaAux : List Char → List Char → List (List Char)
  | [], acc => [acc.reverse]
  | c :: rest, acc =>
      if c = ',' then acc.reverse :: splitCommaAux rest [] else splitCommaAux rest (c :: acc)

/-- Python str.split(","): the empty string yields one empty piece, and every
comma cuts a new piece (empty pieces are kept, exactly as in Python). -/
def splitComma (s : String) : List String :=
  (splitCommaAux s.data []).map String.mk

/-- Tag parsing of one cell, line 108-109 of src/app.py:
astype(str), split on commas, strip each piece, keep the non-empty pieces
(the comprehension keeps x.strip() when it is truthy, i.e. non-empty). -/
def parseTags (v : RawVal) : List String :=
  ((splitComma (astypeStr v)).map strip).filter (fun t => t ≠ "")

/-- The set of tags one record contributes (duplicates collapse, as the pieces
are fed into a Python set). -/
def styleTags (v : RawVal) : Finset String :=
  (parseTags v).toFinset

/-- The tag universe of line 107-109 of src/app.py: the loop updates one
Python set with every row's parsed pieces. -/
def all_styles_in_data (rows : List RawVal) : Finset String :=
  rows.foldl (fun acc v => acc ∪ (parseTags v).toFinset) ∅

/-- Substring test helper: does the list start with the pattern. -/
def leadsWith : List Char → List Char → Bool
  | _, [] => true
  | [], _ :: _ => false
  | a :: s, b :: p => a = b && leadsWith s p

/-- Substring containment: pat occurs somewhere inside s.  This embeds Python
str.contains for a pattern without regex metacharacters. -/
def hasSub : List Char → List Char → Bool
  | [], pat => pat.isEmpty
  | a :: s, pat => leadsWith (a :: s) pat || hasSub s pat

/-- The per-style row mask of line 121 of src/app.py:
df[授業スタイル].str.contains(style, na := False).  An absent cell yields
False (na := False); a string cell is tested by substring containment. -/
def style_mask (v : RawVal) (style : String) : Bool :=
  match v with
  | RawVal.absent => false
  | RawVal.str s => hasSub s.data style.data

/-- One row of the analysis frame after the numeric cleaning of lines 98-99
(点数 and 勉強時間 via pd.to_numeric(errors := coerce), none = NaN), with the
raw tag cell and the department kept. -/
structure Row where
  department : String
  score : Option ℚ
  time : Option ℚ
  styleRaw : RawVal
deriving DecidableEq

/-- Pandas Series.mean with the default skipna: the arithmetic mean of the
present values; NaN (none) when no value is present. -/
def pmean (xs : List (Option ℚ)) : Option ℚ :=
  let vs := xs.filterMap id
  if vs.isEmpty then none else some (vs.sum / (vs.length : ℚ))

/-- The efficiency column 学習効率 of line 101 of src/app.py:
点数 / 勉強時間.replace(0, 1).  A zero study time is replaced by 1 before the
division; a missing operand propagates (NaN arithmetic). -/
def efficiency (score time : Option ℚ) : Option ℚ :=
  match score, time with
  | some s, some t => some (s / (if t = 0 then 1 else t))
  | _, _ => none

/-- The rows selected for one style, line 121-122 of src/app.py:
df[style_mask]. -/
def styleSubset (rows : List Row) (style : String) : List Row :=
  rows.filter (fun r => style_mask r.styleRaw style)

/-- One entry of comparison_list (lines 124-129 of src/app.py). -/
structure CompRow where
  style : String
  meanScore : Option ℚ
  meanTime : Option ℚ
  meanEff : Option ℚ
deriving DecidableEq

/-- The comparison loop of lines 119-129 of src/app.py: for every selected
style, take the mask subset; when the subset is non-empty append one entry
with the three subset means (the efficiency column is computed row-wise on
the whole frame at line 101, so the subset mean of 学習効率 is the mean of the
row-wise efficiencies). -/
def comparison_list (rows : List Row) (selected : List String) : List CompRow :=
  selected.filterMap (fun style =>
    let subset := styleSubset rows style
    if subset.isEmpty then none
    else some { style := style
                meanScore := pmean (subset.map Row.score)
                meanTime := pmean (subset.map Row.time)
                meanEff := pmean (subset.map (fun r => efficiency r.score r.time)) })

/-- The submit branch of lines 78-85 of src/app.py: when the name is empty
(Python falsy) only an error is shown and nothing is saved; otherwise exactly
one row [date, name, dept, score, study_time, joined styles] is appended. -/
def submitted_saves (date name dept : String) (score study_time : ℤ)
    (styles : List String) : List (List String) :=
  if name = "" then []
  else [[date, name, dept, toString score, toString study_time,
         String.intercalate "," styles]]

/-- Column access for the score field, line 98 of src/app.py: the frame column
is read under the single literal name 点数 (a row lacking that key has no
score column; there is no alias list). -/
def resolveScore (row : List (String × String)) : Option String :=
  row.lookup "点数"

/-- Column access for the study-time field, line 99 of src/app.py: the single
literal name 勉強時間. -/
def resolveTime (row : List (String × String)) : Option String :=
  row.lookup "勉強時間"

/-- Modelled from the spec: src/app.py contains no department filter (the
analysis tab only selects by style), so the Filter Engine department
predicate of spec section 4.3 is modelled from the spec's words: a record
passes iff its department is a member of selectedDepartments. -/
def filterByDepartment (rows : List Row) (selectedDepartments : Finset String) : List Row :=
  rows.filter (fun r => r.department ∈ selectedDepartments)

/-- A record whose only tag is 実習あり. -/
def jisshuRow : Row :=
  { department := "情報工学科", score := some 80, time := some 60,
    styleRaw := RawVal.str "実習あり" }

/-- The two records of the summarizeByTag example: score 90 / 30 minutes with
tag lecture, and score 70 / 60 minutes with tag group. -/
def exRows : List Row :=
  [{ department := "Dept1", score := some 90, time := some 30, styleRaw := RawVal.str "lecture" },
   { department := "Dept1", score := some 70, time := some 60, styleRaw := RawVal.str "group" }]

/-- A single record whose score and study time are both missing. -/
def missingScoreRows : List Row :=
  [{ department := "Dept1", score := none, time := none, styleRaw := RawVal.str "solo" }]

/-- The comparison entry the analysis produces for missingScoreRows. -/
def soloComp : CompRow :=
  { style := "solo", meanScore := none, meanTime := none, meanEff := none }

/-- A record whose tag cell is absent (NaN). -/
def absentRow : Row :=
  { department := "Dept1", score := some 1, time := some 1, styleRaw := RawVal.absent }

lemma dw_head_false {α : Type _} (p : α → Bool) :
    ∀ (l : List α) (a : α) (t : List α), List.dropWhile p l = a :: t → p a = false := by
  intro l
  induction l with
  | nil => intro a t h; simp [List.dropWhile] at h
  | cons b l ih =>
      intro a t h
      cases hb : p b with
      | true =>
          rw [List.dropWhile_cons, if_pos hb] at h
          exact ih a t h
      | false =>
          rw [List.dropWhile_cons, if_neg (by simp [hb])] at h
          injection h with h1 _
          subst h1
          exact hb

lemma dw_eq_self_of {α : Type _} (p : α → Bool) (l : List α)
    (h : ∀ a t, l = a :: t → p a = false) : List.dropWhile p l = l := by
  cases l with
  | nil => rfl
  | cons b t => rw [List.dropWhile_cons, if_neg (by simp [h b t rfl])]

lemma rdw_front {α : Type _} (p : α → Bool) (l : List α) :
    ∃ t, List.rdropWhile p l ++ t = l := by
  have h := List.rdropWhile_prefix p l
  exact h

lemma stripL_idem (l : List Char) : stripL (stripL l) = stripL l := by
  unfold stripL
  set m := List.dropWhile isWS l with hm
  have hdw : List.dropWhile isWS (List.rdropWhile isWS m) = List.rdropWhile isWS m := by
    apply dw_eq_self_of
    intro a t h
    obtain ⟨t2, ht2⟩ := rdw_front isWS m
    rw [h, List.cons_append] at ht2
    exact dw_head_false isWS l a (t ++ t2) (by rw [← hm, ht2])
  rw [hdw, List.rdropWhile_idempotent]

lemma strip_idem (s : String) : strip (strip s) = strip s := by
  show String.mk (stripL (stripL s.data)) = String.mk (stripL s.data)
  rw [stripL_idem]

lemma pmean_spec (xs : List (Option ℚ)) (l : List ℚ) (hl : xs.filterMap id = l) :
    (l = [] → pmean xs = none) ∧ (l ≠ [] → pmean xs = some (l.sum / (l.length : ℚ))) := by
  have hp : pmean xs = if l.isEmpty then none else some (l.sum / (l.length : ℚ)) := by
    unfold pmean
    simp only [hl]
  constructor
  · intro h
    rw [hp, h]
    simp
  · intro h
    rw [hp]
    simp [h]

lemma comparison_mem_struct (rows : List Row) (selected : List String) (c : CompRow)
    (hc : c ∈ comparison_list rows selected) :
    c.style ∈ selected ∧ (styleSubset rows c.style).isEmpty = false ∧
    c.meanScore = pmean ((styleSubset rows c.style).map Row.score) ∧
    c.meanTime = pmean ((styleSubset rows c.style).map Row.time) ∧
    c.meanEff = pmean ((styleSubset rows c.style).map (fun r => efficiency r.score r.time)) := by
  simp only [comparison_list, List.mem_filterMap] at hc
  obtain ⟨a, ha, hfa⟩ := hc
  cases hsub : (styleSubset rows a).isEmpty with
  | true =>
      rw [if_pos hsub] at hfa
      simp at hfa
  | false =>
      rw [if_neg (by simp [hsub])] at hfa
      have hca := Option.some.inj hfa
      subst hca
      exact ⟨ha, hsub, rfl, rfl, rfl⟩

/-- C1: per-style matching in src/app.py is substring containment on the raw
joined tag string, not set membership on the parsed tags: the record whose
only tag is 実習あり lands in the sub-collection of the selected tag 実習 even
though 実習 is not an element of its parsed tag set. -/
theorem substring_tag_match_bug :
    jisshuRow ∈ styleSubset [jisshuRow] "実習" ∧
    "実習" ∉ styleTags jisshuRow.styleRaw := by decide

/-- C2: the efficiency column equals score / studyMinutes for a positive
study time, and score / 1 for a zero study time (denominator floor of 1);
concretely efficiency 80 0 = 80 and efficiency 80 40 = 2. -/
theorem efficiency_zero_guard (s t : ℚ) :
    (0 < t → efficiency (some s) (some t) = some (s / t)) ∧
    (t = 0 → efficiency (some s) (some t) = some (s / 1)) ∧
    efficiency (some 80) (some 0) = some 80 ∧
    efficiency (some 80) (some 40) = some 2 := by
  refine ⟨fun h => ?_, fun h => ?_, ?_, ?_⟩
  · simp [efficiency, h.ne']
  · simp [efficiency, h]
  · norm_num [efficiency]
  · norm_num [efficiency]

theorem efficiency_zero_guard_witness :
    ((0 : ℚ) < 40 ∧ efficiency (some 80) (some 40) = some (80 / 40)) ∧
    ((0 : ℚ) = 0 ∧ efficiency (some 80) (some 0) = some (80 / 1)) :=
  ⟨⟨by norm_num, (efficiency_zero_guard 80 40).1 (by norm_num)⟩,
   ⟨rfl, (efficiency_zero_guard 80 0).2.1 rfl⟩⟩

/-- C3 counterexample: the score column resolves only under the literal name
点数 and the study-time column only under 勉強時間; a row carrying the value
under a renamed variant (得点, 学習時間) does not resolve to the same Record —
its lookup is none, so no second accepted alias exists. -/
theorem alias_resolution_counterexample :
    resolveScore [("点数", "80")] = some "80" ∧ resolveScore [("得点", "80")] = none ∧
    resolveTime [("勉強時間", "40")] = some "40" ∧ resolveTime [("学習時間", "40")] = none := by
  decide

/-- C3 amended: column resolution uses exactly one fixed name per semantic
field (点数 for score, 勉強時間 for study time); a single-column row resolves
iff its key is that fixed name. -/
theorem fixed_column_resolution (k v : String) :
    resolveScore [(k, v)] = (if k = "点数" then some v else none) ∧
    resolveTime [(k, v)] = (if k = "勉強時間" then some v else none) := by
  constructor
  · by_cases hk : k = "点数"
    · simp [resolveScore, List.lookup, hk]
    · have hbeq : ("点数" == k) = false := beq_eq_false_iff_ne.mpr (Ne.symm hk)
      simp [resolveScore, List.lookup, hk, hbeq]
  · by_cases hk : k = "勉強時間"
    · simp [resolveTime, List.lookup, hk]
    · have hbeq : ("勉強時間" == k) = false := beq_eq_false_iff_ne.mpr (Ne.symm hk)
      simp [resolveTime, List.lookup, hk, hbeq]

/-- C4: the department predicate with an empty selection passes no records —
the filtered result is empty for every record set. -/
theorem empty_departments_empty_result (rows : List Row) :
    filterByDepartment rows ∅ = [] := by
  simp [filterByDepartment]

/-- C5 counterexample: an absent (NaN) tag cell does not parse to the empty
tag set — astype(str) turns it into the literal string "nan", so the record
contributes the tag "nan". -/
theorem absent_tags_counterexample :
    styleTags RawVal.absent = {"nan"} ∧ parseTags RawVal.absent ≠ [] := by decide

/-- C5 amended: for a string tag cell the parse is split on commas, trim each
piece, drop empty pieces (membership law); but an absent cell is first
coerced by astype(str) to the string "nan" and therefore parses to the single
tag "nan", not to the empty set. -/
theorem tag_parsing_amended (s : String) :
    (∀ t, t ∈ parseTags (RawVal.str s) ↔ t ≠ "" ∧ ∃ c ∈ splitComma s, strip c = t) ∧
    parseTags RawVal.absent = ["nan"] ∧
    parseTags (RawVal.str " a , ,b ") = ["a", "b"] := by
  refine ⟨fun t => ?_, by decide, by decide⟩
  rw [parseTags]
  simp only [astypeStr, List.mem_filter, List.mem_map, decide_eq_true_eq]
  constructor
  · rintro ⟨⟨c, hc, hct⟩, hne⟩
    exact ⟨hne, c, hc, hct⟩
  · rintro ⟨hne, c, hc, hct⟩
    exact ⟨⟨c, hc, hct⟩, hne⟩

theorem tag_parsing_amended_witness :
    "a" ≠ "" ∧ ∃ c ∈ splitComma " a , ,b ", strip c = "a" :=
  ((tag_parsing_amended " a , ,b ").1 "a").mp (by decide)

/-- C6: a selected style whose matching sub-collection is empty is omitted
from the comparison output entirely; on the example records (lecture, group)
with the selected tags lecture, group, unused, the output is exactly the two
entries lecture and group. -/
theorem zero_match_tag_omitted :
    (∀ (rows : List Row) (selected : List String) (style : String),
      styleSubset rows style = [] →
      style ∉ (comparison_list rows selected).map CompRow.style) ∧
    (comparison_list exRows ["lecture", "group", "unused"]).map CompRow.style
      = ["lecture", "group"] := by
  constructor
  · intro rows selected style hempty hmem
    rw [List.mem_map] at hmem
    obtain ⟨c, hc, rfl⟩ := hmem
    have h := (comparison_mem_struct rows selected c hc).2.1
    rw [hempty] at h
    simp at h
  · decide

theorem zero_match_tag_omitted_witness :
    styleSubset exRows "unused" = [] ∧
    "unused" ∉ (comparison_list exRows ["lecture", "group", "unused"]).map CompRow.style :=
  ⟨by decide,
   zero_match_tag_omitted.1 exRows ["lecture", "group", "unused"] "unused" (by decide)⟩

/-- C7: every comparison entry's mean score and mean study time are the
arithmetic means over the present (non-missing) values of its sub-collection,
and when no value of a field is present the mean is the missing marker none,
never some 0. -/
theorem mean_over_present_only :
    ∀ (rows : List Row) (selected : List String) (c : CompRow),
      c ∈ comparison_list rows selected →
      (∀ l, ((styleSubset rows c.style).map Row.score).filterMap id = l →
        (l = [] → c.meanScore = none ∧ c.meanScore ≠ some 0) ∧
        (l ≠ [] → c.meanScore = some (l.sum / (l.length : ℚ)))) ∧
      (∀ l, ((styleSubset rows c.style).map Row.time).filterMap id = l →
        (l = [] → c.meanTime = none ∧ c.meanTime ≠ some 0) ∧
        (l ≠ [] → c.meanTime = some (l.sum / (l.length : ℚ)))) := by
  intro rows selected c hc
  obtain ⟨-, -, hsc, hti, -⟩ := comparison_mem_struct rows selected c hc
  constructor
  · intro l hl
    obtain ⟨he, hne⟩ := pmean_spec _ l hl
    constructor
    · intro h
      rw [hsc, he h]
      simp
    · intro h
      rw [hsc, hne h]
  · intro l hl
    obtain ⟨he, hne⟩ := pmean_spec _ l hl
    constructor
    · intro h
      rw [hti, he h]
      simp
    · intro h
      rw [hti, hne h]

theorem mean_over_present_only_witness :
    soloComp ∈ comparison_list missingScoreRows ["solo"] ∧
    (soloComp.meanScore = none ∧ soloComp.meanScore ≠ some 0) :=
  ⟨by decide,
   ((mean_over_present_only missingScoreRows ["solo"] soloComp (by decide)).1
      [] (by decide)).1 rfl⟩

/-- C8: every tag a record contributes is a non-empty trimmed string (strip
is the identity on it), and duplicates within one record collapse, as the
concrete cell A, B ,A shows. -/
theorem styleTags_parse_law :
    (∀ (v : RawVal) (t : String), t ∈ styleTags v → t ≠ "" ∧ strip t = t) ∧
    styleTags (RawVal.str "A, B ,A") = {"A", "B"} := by
  constructor
  · intro v t ht
    rw [styleTags, List.mem_toFinset, parseTags, List.mem_filter] at ht
    obtain ⟨hmem, hne⟩ := ht
    rw [List.mem_map] at hmem
    obtain ⟨c, -, hc⟩ := hmem
    refine ⟨by simpa using hne, ?_⟩
    rw [← hc, strip_idem]
  · decide

theorem styleTags_parse_law_witness :
    "a" ∈ styleTags (RawVal.str "a") ∧ ("a" ≠ "" ∧ strip "a" = "a") :=
  ⟨by decide, styleTags_parse_law.1 (RawVal.str "a") "a" (by decide)⟩

/-- C9: the submit branch appends nothing when the student name is empty and
appends exactly one row when it is non-empty. -/
theorem submit_guard (date name dept : String) (score study_time : ℤ)
    (styles : List String) :
    (name = "" → submitted_saves date name dept score study_time styles = []) ∧
    (name ≠ "" → (submitted_saves date name dept score study_time styles).length = 1) := by
  constructor
  · intro h
    simp [submitted_saves, h]
  · intro h
    simp [submitted_saves, h]

theorem submit_guard_witness :
    (("" : String) = "" ∧ submitted_saves "2024-01-01" "" "情報工学科" 70 60 [] = []) ∧
    (("花子" : String) ≠ "" ∧
      (submitted_saves "2024-01-01" "花子" "情報工学科" 70 60 ["実習あり"]).length = 1) :=
  ⟨⟨rfl, (submit_guard "2024-01-01" "" "情報工学科" 70 60 []).1 rfl⟩,
   ⟨by decide, (submit_guard "2024-01-01" "花子" "情報工学科" 70 60 ["実習あり"]).2 (by decide)⟩⟩

/-- C10: a record whose tag cell is absent never matches any selected style —
the mask is total and yields false on an absent cell (na := False), so such a
record is excluded from every style's sub-collection. -/
theorem missing_tag_never_matches :
    (∀ style, style_mask RawVal.absent style = false) ∧
    (∀ (rows : List Row) (style : String) (r : Row),
      r ∈ rows → r.styleRaw = RawVal.absent → r ∉ styleSubset rows style) := by
  constructor
  · intro style
    rfl
  · intro rows style r _ habs hmem
    rw [styleSubset, List.mem_filter] at hmem
    obtain ⟨-, hmask⟩ := hmem
    rw [habs] at hmask
    simp [style_mask] at hmask

theorem missing_tag_never_matches_witness :
    (absentRow ∈ [absentRow] ∧ absentRow.styleRaw = RawVal.absent) ∧
    absentRow ∉ styleSubset [absentRow] "実習" :=
  ⟨⟨by decide, rfl⟩,
   missing_tag_never_matches.2 [absentRow] "実習" absentRow (by decide) rfl⟩

end StudyApp
